import Mathlib

/-!
Verification development for the Biomart MCP gateway (src/biomart-mcp.py).

The Python source is shallowly embedded: the remote pybiomart collaborator is
an oracle record (`Remote`), the process-wide mutable state (the `lru_cache`
of `get_server`, the `lru_cache` of `get_translation`, the stderr diagnostic
stream, the `time.sleep` calls and the remote call counters used as
instrumentation) is an explicit state record (`St`) threaded through every
operation, and a raised Python exception is an `Except.error` while a normal
return is `Except.ok`.
-/

namespace Biomart

instance {ε α : Type} [DecidableEq ε] [DecidableEq α] : DecidableEq (Except ε α) := fun x y =>
  match x, y with
  | .ok a, .ok b =>
    if h : a = b then isTrue (by rw [h]) else isFalse (by intro hh; cases hh; exact h rfl)
  | .error a, .error b =>
    if h : a = b then isTrue (by rw [h]) else isFalse (by intro hh; cases hh; exact h rfl)
  | .ok _, .error _ => isFalse (by intro hh; cases hh)
  | .error _, .ok _ => isFalse (by intro hh; cases hh)

/-! ### Configuration constants (module-level constants of the source) -/

def DEFAULT_HOST : String := "http://www.ensembl.org"

def MAX_RETRIES : Nat := 3

def RETRY_DELAY : Nat := 2

def COMMON_ATTRIBUTES : List String :=
  [ "ensembl_gene_id",
    "external_gene_name",
    "hgnc_symbol",
    "hgnc_id",
    "gene_biotype",
    "ensembl_transcript_id",
    "ensembl_peptide_id",
    "ensembl_exon_id",
    "description",
    "chromosome_name",
    "start_position",
    "end_position",
    "strand",
    "band",
    "transcript_start",
    "transcript_end",
    "transcription_start_site",
    "transcript_length" ]

/-! ### Tables and CSV rendering

A pandas `DataFrame` is embedded as a header (column names) plus a list of
rows of string cells.  `df.to_csv(index=False)` is embedded by `csvString`:
every field is quoted per the standard CSV rules used by Python's `csv`
module with `QUOTE_MINIMAL` (a field is quoted iff it contains the delimiter,
the quote character, a line feed, or a carriage return; inner quotes are
doubled), rows are joined with a line feed and the output carries a trailing
line feed.  `.replace("\r", "")` is embedded by `stripCR`.
-/

structure Table where
  cols : List String
  rows : List (List String)
deriving DecidableEq

/-- A row of the `DataFrame` returned by pybiomart's `list_attributes`
(columns `name`, `display_name`, `description`). -/
structure AttrRow where
  name : String
  display_name : String
  description : String
deriving DecidableEq

def attrTable (l : List AttrRow) : Table :=
  ⟨["name", "display_name", "description"],
    l.map fun a => [a.name, a.display_name, a.description]⟩

def needsQuote (s : String) : Bool :=
  s.data.any fun c => c == ',' || c == '"' || c == '\n' || c == '\r'

def escapeQuotes : List Char → List Char
  | [] => []
  | c :: cs => if c = '"' then c :: c :: escapeQuotes cs else c :: escapeQuotes cs

def writeField (s : String) : List Char :=
  if needsQuote s then '"' :: (escapeQuotes s.data ++ ['"']) else s.data

/-- Join chunks with a separator chunk (the concatenation pattern of a CSV
line and of the full CSV text). -/
def joinSep (sep : List Char) : List (List Char) → List Char
  | [] => []
  | [x] => x
  | x :: y :: rest => x ++ sep ++ joinSep sep (y :: rest)

def writeRow (r : List String) : List Char :=
  joinSep [','] (r.map writeField)

def csvChars (t : Table) : List Char :=
  joinSep ['\n'] ((t.cols :: t.rows).map writeRow) ++ ['\n']

def csvString (t : Table) : String :=
  String.mk (csvChars t)

def stripCR (s : String) : String :=
  String.mk (s.data.filter fun c => c ≠ '\r')

/-- `df.to_csv(index=False).replace("\r", "")` -/
def normalize (t : Table) : String :=
  stripCR (csvString t)

/-! ### A standard CSV reader (used to state the round-trip property) -/

/-- Split at every occurrence of `sep` that is outside double quotes
(quote parity toggles at each `"`). -/
def splitTopAux (sep : Char) : List Char → Bool → List Char → List (List Char)
  | [], _, acc => [acc.reverse]
  | c :: cs, inQ, acc =>
    if c = '"' then splitTopAux sep cs (!inQ) (c :: acc)
    else if c = sep ∧ inQ = false then acc.reverse :: splitTopAux sep cs inQ []
    else splitTopAux sep cs inQ (c :: acc)

def splitTop (sep : Char) (cs : List Char) : List (List Char) :=
  splitTopAux sep cs false []

def unescapeQuotes : List Char → List Char
  | [] => []
  | [c] => [c]
  | c :: c2 :: cs =>
    if c = '"' ∧ c2 = '"' then c :: unescapeQuotes cs
    else c :: unescapeQuotes (c2 :: cs)

def unquoteField (cs : List Char) : String :=
  if cs.head? = some '"' then String.mk (unescapeQuotes cs.tail.dropLast)
  else String.mk cs

def parseRecord (cs : List Char) : List String :=
  (splitTop ',' cs).map unquoteField

def stripFinalNewline (cs : List Char) : List Char :=
  if cs.getLast? = some '\n' then cs.dropLast else cs

/-- Parse CSV text back into its records (header line included). -/
def parseCSV (s : String) : List (List String) :=
  (splitTop '\n' (stripFinalNewline s.data)).map parseRecord

/-- No cell and no column name contains a carriage return. -/
def crFree (t : Table) : Prop :=
  (∀ c ∈ t.cols, '\r' ∉ c.data) ∧ ∀ r ∈ t.rows, ∀ cell ∈ r, '\r' ∉ cell.data

instance (t : Table) : Decidable (crFree t) := by
  unfold crFree; infer_instance

/-- Every record of the table (header included) has at least one field. -/
def rowsNonempty (t : Table) : Prop :=
  t.cols ≠ [] ∧ ∀ r ∈ t.rows, r ≠ []

instance (t : Table) : Decidable (rowsNonempty t) := by
  unfold rowsNonempty; infer_instance

/-! ### The remote collaborator and the process state

`Remote` is the external pybiomart collaborator.  `connectR` is the outcome
of the n-th connection establishment (`pybiomart.Server(host=DEFAULT_HOST)`),
`queryR` the outcome of the n-th `dataset.query(...)` call; indexing by the
call count lets transient failures be expressed.  `get_data` passes its
`filters` dict (`some fs`), `get_translation` passes no filters (`none`).
-/

structure Remote where
  connectR : Nat → Except String Unit
  listMartsR : Except String Table
  listDatasetsR : String → Except String Table
  listAttributesR : String → String → Except String (List AttrRow)
  listFiltersR : String → String → Except String Table
  queryR : Nat → String → String → List String → Option (List (String × String)) →
    Except String Table

/-- Key of the `lru_cache` on `get_translation`: all five string arguments. -/
abbrev TransKey := String × String × String × String × String

/-- Process-wide mutable state: the zero-argument `lru_cache` of `get_server`
(a single memoized success), the `lru_cache(maxsize=1000)` of
`get_translation` (most-recently-used first), the counters of connection
establishments and of remote `query` calls (the call-count instrumentation on
the collaborator), the stderr diagnostic stream and the `time.sleep`
durations. -/
structure St where
  serverCached : Bool
  tcache : List (TransKey × String)
  connects : Nat
  queries : Nat
  logs : List String
  sleeps : List Nat
deriving DecidableEq

def initSt : St := ⟨false, [], 0, 0, [], []⟩

/-! ### Connection establishment -/

/-- `get_server` (decorated with `lru_cache(maxsize=10)`, zero arguments): a
memoized successful connection is reused; otherwise `pybiomart.Server` is
called, a success is cached, a failure is logged to stderr and re-raised
(uncached, since `lru_cache` does not cache raised exceptions). -/
def get_server (r : Remote) (s : St) : Except String Unit × St :=
  if s.serverCached then (.ok (), s)
  else
    match r.connectR s.connects with
    | .ok _ => (.ok (), { s with serverCached := true, connects := s.connects + 1 })
    | .error e =>
        (.error e,
          { s with connects := s.connects + 1,
                   logs := s.logs ++ ["Error connecting to Biomart server: " ++ e] })

/-- A direct `pybiomart.Server(host=DEFAULT_HOST)` call (used by
`list_common_attributes`, `list_all_attributes` and `list_filters`): a fresh
connection is established on every call, nothing is cached, a failure
propagates. -/
def serverDirect (r : Remote) (s : St) : Except String Unit × St :=
  match r.connectR s.connects with
  | .ok _ => (.ok (), { s with connects := s.connects + 1 })
  | .error e => (.error e, { s with connects := s.connects + 1 })

/-! ### Catalog listing operations -/

def list_marts (r : Remote) (s : St) : Except String String × St :=
  match get_server r s with
  | (.error e, s1) =>
      (.ok ("Error: " ++ e), { s1 with logs := s1.logs ++ ["Error listing marts: " ++ e] })
  | (.ok _, s1) =>
    match r.listMartsR with
    | .ok t => (.ok (normalize t), s1)
    | .error e =>
        (.ok ("Error: " ++ e), { s1 with logs := s1.logs ++ ["Error listing marts: " ++ e] })

def list_datasets (r : Remote) (s : St) (mart : String) : Except String String × St :=
  match get_server r s with
  | (.error e, s1) =>
      (.ok ("Error: " ++ e),
        { s1 with logs := s1.logs ++ ["Error listing datasets for mart " ++ mart ++ ": " ++ e] })
  | (.ok _, s1) =>
    match r.listDatasetsR mart with
    | .ok t => (.ok (normalize t), s1)
    | .error e =>
        (.ok ("Error: " ++ e),
          { s1 with logs := s1.logs ++ ["Error listing datasets for mart " ++ mart ++ ": " ++ e] })

/-- `pattern in name` as pandas `str.contains` with a metacharacter-free
pattern: literal substring containment. -/
def startsWithPat : List Char → List Char → Bool
  | [], _ => true
  | _ :: _, [] => false
  | a :: ps, b :: ss => a == b && startsWithPat ps ss

def containsPat : List Char → List Char → Bool
  | pat, [] => startsWithPat pat []
  | pat, c :: rest => startsWithPat pat (c :: rest) || containsPat pat rest

def containsSub (pat s : String) : Bool :=
  containsPat pat.data s.data

def list_common_attributes (r : Remote) (s : St) (mart dataset : String) :
    Except String String × St :=
  match serverDirect r s with
  | (.error e, s1) => (.error e, s1)
  | (.ok _, s1) =>
    match r.listAttributesR mart dataset with
    | .error e => (.error e, s1)
    | .ok df =>
        (.ok (normalize (attrTable (df.filter fun a => COMMON_ATTRIBUTES.contains a.name))), s1)

def list_all_attributes (r : Remote) (s : St) (mart dataset : String) :
    Except String String × St :=
  match serverDirect r s with
  | (.error e, s1) => (.error e, s1)
  | (.ok _, s1) =>
    match r.listAttributesR mart dataset with
    | .error e => (.error e, s1)
    | .ok df =>
        let df := df.filter fun a => !(containsSub "_homolog_" a.name)
        let df := df.filter fun a => !(containsSub "dbass" a.name)
        let df := df.filter fun a => !(containsSub "affy_" a.name)
        let df := df.filter fun a => !(containsSub "agilent_" a.name)
        (.ok (normalize (attrTable df)), s1)

def list_filters (r : Remote) (s : St) (mart dataset : String) :
    Except String String × St :=
  match serverDirect r s with
  | (.error e, s1) => (.error e, s1)
  | (.ok _, s1) =>
    match r.listFiltersR mart dataset with
    | .error e => (.error e, s1)
    | .ok t => (.ok (normalize t), s1)

/-! ### Query executor (`get_data`) -/

def getDataFailLog (attempt : Nat) (e : String) : String :=
  "Error getting data (attempt " ++ toString (attempt + 1) ++ "/" ++
    toString MAX_RETRIES ++ "): " ++ e

def retryLog : String :=
  "Retrying in " ++ toString RETRY_DELAY ++ " seconds..."

/-- One attempt of the `get_data` loop body: `get_server()` followed by
`server[mart][dataset].query(attributes=attributes, filters=filters)` and CSV
normalization; any raised exception surfaces as `.error`. -/
def getDataAttempt (r : Remote) (s : St) (mart dataset : String)
    (attributes : List String) (filters : List (String × String)) :
    Except String String × St :=
  match get_server r s with
  | (.error e, s1) => (.error e, s1)
  | (.ok _, s1) =>
    match r.queryR s1.queries mart dataset attributes (some filters) with
    | .ok t => (.ok (normalize t), { s1 with queries := s1.queries + 1 })
    | .error e => (.error e, { s1 with queries := s1.queries + 1 })

/-- The `for attempt in range(MAX_RETRIES)` loop of `get_data`, structurally
recursive on the number of remaining iterations (invariantly
`attempt + remaining = MAX_RETRIES`).  Falling out of the loop is Python's
implicit `return None`; it is unreachable for `MAX_RETRIES = 3`. -/
def getDataGo (r : Remote) (mart dataset : String) (attributes : List String)
    (filters : List (String × String)) :
    Nat → Nat → St → Except String String × St
  | _, 0, s => (.ok "None", s)
  | attempt, remaining + 1, s =>
    match getDataAttempt r s mart dataset attributes filters with
    | (.ok v, s1) => (.ok v, s1)
    | (.error e, s1) =>
      let s2 := { s1 with logs := s1.logs ++ [getDataFailLog attempt e] }
      if attempt < MAX_RETRIES - 1 then
        getDataGo r mart dataset attributes filters (attempt + 1) remaining
          { s2 with logs := s2.logs ++ [retryLog], sleeps := s2.sleeps ++ [RETRY_DELAY] }
      else
        (.ok ("Error: " ++ e), s2)

def get_data (r : Remote) (s : St) (mart dataset : String) (attributes : List String)
    (filters : List (String × String)) : Except String String × St :=
  getDataGo r mart dataset attributes filters 0 MAX_RETRIES s

/-! ### Translation (`get_translation`, decorated with `lru_cache(maxsize=1000)`) -/

/-- `dict(zip(df.iloc[:, 0], df.iloc[:, 1]))` followed by `result_dict[target]`:
a Python dict built from pairs keeps the last-seen value for a duplicated key,
so the lookup returns the value of the last matching pair. -/
def lastLookup : List (String × String) → String → Option String
  | [], _ => none
  | (a, b) :: rest, k =>
    match lastLookup rest k with
    | some v => some v
    | none => if a = k then some b else none

/-- The first two columns of a query result, as `zip(df.iloc[:, 0], df.iloc[:, 1])`
(DataFrames are rectangular, so every row has both cells). -/
def tablePairs (t : Table) : List (String × String) :=
  t.rows.map fun row => (row.getD 0 "", row.getD 1 "")

/-- The undecorated body of `get_translation`: connect, run the two-column
query, build the dict, look up `target`; every raised exception is caught and
converted to an inline `"Error: ..."` string. -/
def getTranslationBody (r : Remote) (s : St)
    (mart dataset from_attr to_attr target : String) : String × St :=
  match get_server r s with
  | (.error e, s1) =>
      ("Error: " ++ e, { s1 with logs := s1.logs ++ ["Error in translation: " ++ e] })
  | (.ok _, s1) =>
    match r.queryR s1.queries mart dataset [from_attr, to_attr] none with
    | .error e =>
        ("Error: " ++ e,
          { s1 with queries := s1.queries + 1,
                    logs := s1.logs ++ ["Error in translation: " ++ e] })
    | .ok t =>
      match lastLookup (tablePairs t) target with
      | none =>
          ("Error: Target '" ++ target ++ "' not found",
            { s1 with queries := s1.queries + 1,
                      logs := s1.logs ++ ["Target '" ++ target ++ "' not found in translation"] })
      | some v => (v, { s1 with queries := s1.queries + 1 })

def lookupCache : List (TransKey × String) → TransKey → Option String
  | [], _ => none
  | (k, v) :: rest, key => if k = key then some v else lookupCache rest key

def removeKey : List (TransKey × String) → TransKey → List (TransKey × String)
  | [], _ => []
  | (k, v) :: rest, key =>
    if k = key then removeKey rest key else (k, v) :: removeKey rest key

/-- `get_translation` as called through its decorators: the `lru_cache`
(capacity 1000, keyed on all five arguments, hits moved to most-recent,
least-recent entry evicted on overflow) wraps the body; the memoized return
value — translated value or error string alike — is replayed on a hit without
touching the remote. -/
def get_translation (r : Remote) (s : St)
    (mart dataset from_attr to_attr target : String) : Except String String × St :=
  let key : TransKey := (mart, dataset, from_attr, to_attr, target)
  match lookupCache s.tcache key with
  | some v => (.ok v, { s with tcache := (key, v) :: removeKey s.tcache key })
  | none =>
    let p := getTranslationBody r s mart dataset from_attr to_attr target
    (.ok p.1, { p.2 with tcache := List.take 1000 ((key, p.1) :: p.2.tcache) })

/-- `get_translation` at a bundled cache key (helper for call sequences). -/
def callKey (r : Remote) (s : St) (k : TransKey) : Except String String × St :=
  get_translation r s k.1 k.2.1 k.2.2.1 k.2.2.2.1 k.2.2.2.2

/-- The state after a sequence of `get_translation` calls. -/
def runFill (r : Remote) (ks : List TransKey) (s : St) : St :=
  ks.foldl (fun s k => (callKey r s k).2) s

/-- `.ok` on a caller-visible outcome: the call returned instead of raising. -/
def isOk : Except String String → Bool
  | .ok _ => true
  | .error _ => false

/-! ### Auxiliary scan predicate for the CSV round-trip proofs

`cleanAux sep cs inQ = true` states that scanning `cs` from quote-state `inQ`
meets `sep` only inside quotes and ends outside quotes; such a chunk is kept
whole by `splitTopAux`. -/

def cleanAux (sep : Char) : List Char → Bool → Bool
  | [], inQ => !inQ
  | c :: cs, inQ =>
    if c = '"' then cleanAux sep cs (!inQ)
    else if c = sep ∧ inQ = false then false
    else cleanAux sep cs inQ

/-! ### Concrete collaborators and states

Small closed instances of the oracle used by witnesses and counterexamples.
-/

/-- A remote on which every call succeeds. -/
def okRemote : Remote where
  connectR := fun _ => .ok ()
  listMartsR := .ok ⟨["name"], [["m1"]]⟩
  listDatasetsR := fun _ => .ok ⟨["name"], [["d1"]]⟩
  listAttributesR := fun _ _ =>
    .ok [⟨"hgnc_symbol", "HGNC symbol", "x"⟩, ⟨"affy_hg_u133a", "AFFY HG U133A", "y"⟩]
  listFiltersR := fun _ _ => .ok ⟨["name"], [["f1"]]⟩
  queryR := fun _ _ _ _ _ => .ok ⟨["f", "t"], [["TP53", "ENSG1"], ["BRCA2", "ENSG2"]]⟩

/-- Connection establishment always fails. -/
def connFailRemote : Remote := { okRemote with connectR := fun _ => .error "refused" }

/-- Connecting succeeds but listing attributes fails remotely. -/
def attrErrRemote : Remote :=
  { okRemote with listAttributesR := fun _ _ => .error "no such mart" }

/-- Connecting succeeds but listing filters fails remotely. -/
def filtErrRemote : Remote :=
  { okRemote with listFiltersR := fun _ _ => .error "bad dataset" }

/-- Every remote query fails. -/
def queryFailRemote : Remote :=
  { okRemote with queryR := fun _ _ _ _ _ => .error "boom" }

/-- The first remote query fails, every later one succeeds. -/
def flakyRemote : Remote :=
  { okRemote with queryR := (fun n _ _ _ _ =>
      if n = 0 then .error "timeout" else .ok ⟨["f", "t"], [["TP53", "ENSG1"]]⟩) }

/-- The first remote query maps TP53 to A, every later one maps it to B
(the backing dataset changes between the calls). -/
def evictRemote : Remote :=
  { okRemote with queryR := (fun n _ _ _ _ =>
      if n = 0 then .ok ⟨["f", "t"], [["TP53", "A"]]⟩
      else .ok ⟨["f", "t"], [["TP53", "B"]]⟩) }

/-- A remote whose mart listing contains a carriage return inside a cell. -/
def crRemote : Remote := { okRemote with listMartsR := .ok ⟨["a"], [["x\ry"]]⟩ }

/-- A remote whose two-column query result carries a duplicated from-value. -/
def dupRemote : Remote :=
  { okRemote with queryR := (fun _ _ _ _ _ =>
      .ok ⟨["f", "t"], [["TP53", "OLD"], ["BRCA2", "ENSG2"], ["TP53", "NEW"]]⟩) }

/-- The i-th filler cache key (all pairwise distinct, none of them equal to a
key whose first component is not "fill"). -/
def fillKey (i : Nat) : TransKey :=
  ("fill", "x", "x", "x", String.mk (List.replicate i 'z'))

/-- A state in which `get_server` already holds a memoized connection. -/
def cachedSt : St := { initSt with serverCached := true }

/-! ## Lemmas: the CSV writer and reader invert each other -/

theorem cleanAux_nil (sep : Char) (inQ : Bool) : cleanAux sep [] inQ = !inQ := rfl

theorem cleanAux_cons (sep c : Char) (cs : List Char) (inQ : Bool) :
    cleanAux sep (c :: cs) inQ =
      if c = '"' then cleanAux sep cs (!inQ)
      else if c = sep ∧ inQ = false then false
      else cleanAux sep cs inQ := rfl

theorem splitTopAux_nil (sep : Char) (inQ : Bool) (acc : List Char) :
    splitTopAux sep [] inQ acc = [acc.reverse] := rfl

theorem splitTopAux_cons (sep c : Char) (cs : List Char) (inQ : Bool) (acc : List Char) :
    splitTopAux sep (c :: cs) inQ acc =
      if c = '"' then splitTopAux sep cs (!inQ) (c :: acc)
      else if c = sep ∧ inQ = false then acc.reverse :: splitTopAux sep cs inQ []
      else splitTopAux sep cs inQ (c :: acc) := rfl

theorem escapeQuotes_cons (c : Char) (cs : List Char) :
    escapeQuotes (c :: cs) =
      if c = '"' then c :: c :: escapeQuotes cs else c :: escapeQuotes cs := rfl

theorem cleanAux_append {sep : Char} {a : List Char} :
    ∀ {inQ : Bool}, cleanAux sep a inQ = true →
      ∀ b, cleanAux sep (a ++ b) inQ = cleanAux sep b false := by
  induction a with
  | nil =>
    intro inQ h b
    rw [cleanAux_nil] at h
    simp only [Bool.not_eq_true'] at h
    subst h
    rfl
  | cons c cs ih =>
    intro inQ h b
    rw [cleanAux_cons] at h
    rw [List.cons_append, cleanAux_cons]
    by_cases hc : c = '"'
    · rw [if_pos hc] at h ⊢
      exact ih h b
    · rw [if_neg hc] at h ⊢
      by_cases hcs : c = sep ∧ inQ = false
      · rw [if_pos hcs] at h
        cases h
      · rw [if_neg hcs] at h ⊢
        exact ih h b

theorem cleanAux_of_forall {sep : Char} {l : List Char}
    (h : ∀ c ∈ l, c ≠ '"' ∧ c ≠ sep) : cleanAux sep l false = true := by
  induction l with
  | nil => rfl
  | cons c cs ih =>
    obtain ⟨h1, h2⟩ := h c (List.mem_cons_self c cs)
    rw [cleanAux_cons, if_neg h1, if_neg fun hh => h2 hh.1]
    exact ih fun x hx => h x (List.mem_cons_of_mem c hx)

theorem cleanAux_escape_concat {sep : Char} (l : List Char) :
    cleanAux sep (escapeQuotes l ++ ['"']) true = true := by
  induction l with
  | nil =>
    show cleanAux sep ['"'] true = true
    rw [cleanAux_cons, if_pos rfl]
    rfl
  | cons c cs ih =>
    rw [escapeQuotes_cons]
    by_cases hc : c = '"'
    · rw [if_pos hc, hc, List.cons_append, List.cons_append,
        cleanAux_cons, if_pos rfl, cleanAux_cons, if_pos rfl]
      exact ih
    · rw [if_neg hc, List.cons_append, cleanAux_cons, if_neg hc,
        if_neg fun hh => absurd hh.2 (by decide)]
      exact ih

theorem needsQuote_eq_false_mem {f : String} (h : needsQuote f = false) :
    ∀ c ∈ f.data, c ≠ ',' ∧ c ≠ '"' ∧ c ≠ '\n' ∧ c ≠ '\r' := by
  intro c hc
  unfold needsQuote at h
  rw [List.any_eq_false] at h
  have := h c hc
  simp at this
  tauto

theorem cleanAux_writeField {sep : Char} (hs : sep = ',' ∨ sep = '\n') (f : String) :
    cleanAux sep (writeField f) false = true := by
  unfold writeField
  by_cases hq : needsQuote f = true
  · rw [if_pos hq, cleanAux_cons, if_pos rfl]
    exact cleanAux_escape_concat f.data
  · rw [if_neg hq]
    refine cleanAux_of_forall fun c hc => ?_
    have hm := needsQuote_eq_false_mem (Bool.eq_false_iff.mpr hq) c hc
    rcases hs with h | h <;> subst h
    · exact ⟨hm.2.1, hm.1⟩
    · exact ⟨hm.2.1, hm.2.2.1⟩

theorem cleanAux_writeRow (r : List String) : cleanAux '\n' (writeRow r) false = true := by
  unfold writeRow
  induction r with
  | nil => rfl
  | cons f tail ih =>
    cases tail with
    | nil => simpa [joinSep] using cleanAux_writeField (Or.inr rfl) f
    | cons g rest =>
      simp only [List.map_cons, joinSep]
      rw [List.append_assoc, cleanAux_append (cleanAux_writeField (Or.inr rfl) f),
        List.singleton_append, cleanAux_cons,
        if_neg (by decide : ¬((',' : Char) = '"')),
        if_neg fun hh => by cases hh.1]
      simpa [joinSep] using ih

theorem splitTopAux_chunk_sep {sep : Char} (hsep : sep ≠ '"') {rest : List Char} :
    ∀ {chunk : List Char} {inQ : Bool} {acc : List Char},
      cleanAux sep chunk inQ = true →
      splitTopAux sep (chunk ++ sep :: rest) inQ acc
        = (acc.reverse ++ chunk) :: splitTopAux sep rest false [] := by
  intro chunk
  induction chunk with
  | nil =>
    intro inQ acc h
    rw [cleanAux_nil] at h
    simp only [Bool.not_eq_true'] at h
    subst h
    rw [List.nil_append, splitTopAux_cons, if_neg hsep, if_pos ⟨rfl, rfl⟩]
    simp
  | cons c cs ih =>
    intro inQ acc h
    rw [cleanAux_cons] at h
    rw [List.cons_append, splitTopAux_cons]
    by_cases hc : c = '"'
    · rw [if_pos hc] at h ⊢
      rw [ih h]
      simp [hc]
    · rw [if_neg hc] at h ⊢
      by_cases hcs : c = sep ∧ inQ = false
      · rw [if_pos hcs] at h
        cases h
      · rw [if_neg hcs] at h ⊢
        rw [ih h]
        simp

theorem splitTopAux_chunk_last {sep : Char} :
    ∀ {chunk : List Char} {inQ : Bool} {acc : List Char},
      cleanAux sep chunk inQ = true →
      splitTopAux sep chunk inQ acc = [acc.reverse ++ chunk] := by
  intro chunk
  induction chunk with
  | nil =>
    intro inQ acc _
    rw [splitTopAux_nil]
    simp
  | cons c cs ih =>
    intro inQ acc h
    rw [cleanAux_cons] at h
    rw [splitTopAux_cons]
    by_cases hc : c = '"'
    · rw [if_pos hc] at h ⊢
      rw [ih h]
      simp [hc]
    · rw [if_neg hc] at h ⊢
      by_cases hcs : c = sep ∧ inQ = false
      · rw [if_pos hcs] at h
        cases h
      · rw [if_neg hcs] at h ⊢
        rw [ih h]
        simp

theorem splitTop_joinSep {sep : Char} (hsep : sep ≠ '"') :
    ∀ chs : List (List Char), chs ≠ [] → (∀ c ∈ chs, cleanAux sep c false = true) →
      splitTop sep (joinSep [sep] chs) = chs := by
  intro chs
  induction chs with
  | nil => intro h; exact absurd rfl h
  | cons x tail ih =>
    intro _ hall
    cases tail with
    | nil =>
      simpa [joinSep, splitTop] using splitTopAux_chunk_last (hall x (by simp))
    | cons y rest =>
      unfold splitTop
      rw [show joinSep [sep] (x :: y :: rest) = x ++ sep :: joinSep [sep] (y :: rest) by
        simp [joinSep]]
      rw [splitTopAux_chunk_sep hsep (hall x (by simp))]
      have := ih (by simp) fun c hc => hall c (List.mem_cons_of_mem _ hc)
      unfold splitTop at this
      rw [this]
      simp

theorem unescape_escape (l : List Char) : unescapeQuotes (escapeQuotes l) = l := by
  induction l with
  | nil => rfl
  | cons c cs ih =>
    by_cases hc : c = '"'
    · subst hc
      rw [show escapeQuotes ('"' :: cs) = '"' :: '"' :: escapeQuotes cs by
        simp [escapeQuotes]]
      rw [show unescapeQuotes ('"' :: '"' :: escapeQuotes cs)
          = '"' :: unescapeQuotes (escapeQuotes cs) by simp [unescapeQuotes]]
      rw [ih]
    · rcases hcs : escapeQuotes cs with _ | ⟨d, ds⟩
      · have hnil : cs = [] := by
          have h2 := ih
          rw [hcs] at h2
          simpa [unescapeQuotes] using h2.symm
        subst hnil
        simp [escapeQuotes, hc, unescapeQuotes]
      · rw [show escapeQuotes (c :: cs) = c :: escapeQuotes cs by simp [escapeQuotes, hc]]
        rw [hcs]
        rw [show unescapeQuotes (c :: d :: ds) = c :: unescapeQuotes (d :: ds) by
          simp [unescapeQuotes, hc]]
        rw [← hcs, ih]

theorem unquoteField_quote (rest : List Char) :
    unquoteField ('"' :: rest) = String.mk (unescapeQuotes rest.dropLast) := by
  unfold unquoteField
  rw [List.head?_cons, List.tail_cons, if_pos rfl]

theorem unquoteField_ne {c : Char} (cs : List Char) (hc : c ≠ '"') :
    unquoteField (c :: cs) = String.mk (c :: cs) := by
  unfold unquoteField
  rw [List.head?_cons, if_neg fun h => hc (Option.some.inj h)]

theorem unquote_writeField (f : String) : unquoteField (writeField f) = f := by
  unfold writeField
  by_cases hq : needsQuote f = true
  · rw [if_pos hq, unquoteField_quote, List.dropLast_concat, unescape_escape]
  · rw [if_neg hq]
    have hnoq : ('"' : Char) ∉ f.data := fun hmem =>
      (needsQuote_eq_false_mem (Bool.eq_false_iff.mpr hq) '"' hmem).2.1 rfl
    rcases hd : f.data with _ | ⟨c, cs⟩
    · show String.mk [] = f
      rw [← hd]
    · have hc : c ≠ '"' := fun hcq => hnoq (by rw [hd, hcq]; exact List.mem_cons_self _ _)
      rw [unquoteField_ne cs hc, ← hd]

theorem parseRecord_writeRow {r : List String} (hr : r ≠ []) :
    parseRecord (writeRow r) = r := by
  unfold parseRecord writeRow
  rw [splitTop_joinSep (by decide) (r.map writeField) (by simpa using hr)
    (fun c hc => by
      rcases List.mem_map.mp hc with ⟨f, _, rfl⟩
      exact cleanAux_writeField (Or.inl rfl) f)]
  rw [List.map_map]
  calc r.map (unquoteField ∘ writeField) = r.map id :=
        List.map_congr_left fun a _ => unquote_writeField a
    _ = r := List.map_id r

theorem mem_escapeQuotes {c : Char} : ∀ {l : List Char}, c ∈ escapeQuotes l → c ∈ l := by
  intro l
  induction l with
  | nil => simp [escapeQuotes]
  | cons d ds ih =>
    intro h
    by_cases hd : d = '"'
    · subst hd
      rw [show escapeQuotes ('"' :: ds) = '"' :: '"' :: escapeQuotes ds by
        simp [escapeQuotes]] at h
      rcases List.mem_cons.mp h with h | h
      · exact h ▸ List.mem_cons_self _ _
      rcases List.mem_cons.mp h with h | h
      · exact h ▸ List.mem_cons_self _ _
      · exact List.mem_cons_of_mem _ (ih h)
    · rw [show escapeQuotes (d :: ds) = d :: escapeQuotes ds by simp [escapeQuotes, hd]] at h
      rcases List.mem_cons.mp h with h | h
      · exact h ▸ List.mem_cons_self _ _
      · exact List.mem_cons_of_mem _ (ih h)

theorem mem_writeField {c : Char} {f : String} (h : c ∈ writeField f) :
    c ∈ f.data ∨ c = '"' := by
  unfold writeField at h
  by_cases hq : needsQuote f = true
  · rw [if_pos hq] at h
    rcases List.mem_cons.mp h with h | h
    · exact Or.inr h
    rcases List.mem_append.mp h with h | h
    · exact Or.inl (mem_escapeQuotes h)
    · simp at h
      exact Or.inr h
  · rw [if_neg hq] at h
    exact Or.inl h

theorem mem_joinSep {c : Char} {sep : List Char} :
    ∀ {chs : List (List Char)}, c ∈ joinSep sep chs → c ∈ sep ∨ ∃ ch ∈ chs, c ∈ ch := by
  intro chs
  induction chs with
  | nil => simp [joinSep]
  | cons x tail ih =>
    cases tail with
    | nil =>
      intro h
      exact Or.inr ⟨x, List.mem_cons_self _ _, by simpa [joinSep] using h⟩
    | cons y rest =>
      intro h
      simp only [joinSep] at h
      rcases List.mem_append.mp h with h | h
      · rcases List.mem_append.mp h with h | h
        · exact Or.inr ⟨x, List.mem_cons_self _ _, h⟩
        · exact Or.inl h
      · rcases ih h with h | ⟨ch, hch, hc⟩
        · exact Or.inl h
        · exact Or.inr ⟨ch, List.mem_cons_of_mem _ hch, hc⟩

theorem csvChars_no_cr {t : Table} (h : crFree t) : '\r' ∉ csvChars t := by
  intro hmem
  unfold csvChars at hmem
  rcases List.mem_append.mp hmem with hmem | hmem
  · rcases mem_joinSep hmem with hsep | ⟨ch, hch, hc⟩
    · simp at hsep
    · rcases List.mem_map.mp hch with ⟨row, hrow, rfl⟩
      unfold writeRow at hc
      rcases mem_joinSep hc with hsep | ⟨fch, hfch, hfc⟩
      · simp at hsep
      · rcases List.mem_map.mp hfch with ⟨f, hf, rfl⟩
        rcases mem_writeField hfc with hin | heq
        · rcases List.mem_cons.mp hrow with hrow | hrow
          · exact h.1 f (hrow ▸ hf) hin
          · exact h.2 row hrow f hf hin
        · exact absurd heq (by decide)
  · simp at hmem

theorem stripCR_of_no_cr {s : String} (h : '\r' ∉ s.data) : stripCR s = s := by
  unfold stripCR
  have : s.data.filter (fun c => c ≠ '\r') = s.data :=
    List.filter_eq_self.mpr fun a ha => decide_eq_true fun heq => h (heq ▸ ha)
  rw [this]

theorem normalize_eq_csvString {t : Table} (h : crFree t) : normalize t = csvString t := by
  unfold normalize
  exact stripCR_of_no_cr (csvChars_no_cr h)

theorem stripFinalNewline_concat (l : List Char) : stripFinalNewline (l ++ ['\n']) = l := by
  unfold stripFinalNewline
  rw [List.getLast?_concat, if_pos rfl, List.dropLast_concat]

theorem parseCSV_csvString (t : Table) (hne : rowsNonempty t) :
    parseCSV (csvString t) = t.cols :: t.rows := by
  unfold parseCSV
  rw [show (csvString t).data = csvChars t from rfl]
  unfold csvChars
  rw [stripFinalNewline_concat]
  rw [splitTop_joinSep (by decide) ((t.cols :: t.rows).map writeRow) (by simp)
    (fun c hc => by
      rcases List.mem_map.mp hc with ⟨row, _, rfl⟩
      exact cleanAux_writeRow row)]
  rw [List.map_map]
  calc (t.cols :: t.rows).map (parseRecord ∘ writeRow)
      = (t.cols :: t.rows).map id := by
        refine List.map_congr_left fun row hrow => ?_
        rcases List.mem_cons.mp hrow with h | h
        · exact parseRecord_writeRow (h ▸ hne.1)
        · exact parseRecord_writeRow (hne.2 row h)
    _ = t.cols :: t.rows := List.map_id _

/-! ## Lemmas: the translation cache -/

theorem lookupCache_eq_none {c : List (TransKey × String)} {k : TransKey} :
    lookupCache c k = none ↔ k ∉ c.map Prod.fst := by
  induction c with
  | nil => simp [lookupCache]
  | cons p rest ih =>
    obtain ⟨k', v⟩ := p
    by_cases hk : k' = k
    · subst hk
      simp [lookupCache]
    · rw [show lookupCache ((k', v) :: rest) k = lookupCache rest k by
        simp [lookupCache, hk]]
      rw [ih]
      simp only [List.map_cons, List.mem_cons]
      constructor
      · rintro hn (rfl | hm)
        · exact hk rfl
        · exact hn hm
      · intro hn hm
        exact hn (Or.inr hm)

theorem lookupCache_cons_self (k : TransKey) (v : String) (rest : List (TransKey × String)) :
    lookupCache ((k, v) :: rest) k = some v := by
  simp [lookupCache]

theorem take_append_take {α : Type} (n : Nat) (a l : List α) :
    List.take n (a ++ List.take n l) = List.take n (a ++ l) := by
  rw [List.take_append_eq_append_take, List.take_append_eq_append_take, List.take_take,
    Nat.min_eq_left (Nat.sub_le n a.length)]

theorem get_translation_hit (r : Remote) (s : St) (m d f t tg v : String)
    (h : lookupCache s.tcache (m, d, f, t, tg) = some v) :
    get_translation r s m d f t tg
      = (.ok v,
         { s with tcache := ((m, d, f, t, tg), v) :: removeKey s.tcache (m, d, f, t, tg) }) := by
  simp only [get_translation, h]

theorem get_translation_miss (r : Remote) (s : St) (m d f t tg : String)
    (h : lookupCache s.tcache (m, d, f, t, tg) = none) :
    get_translation r s m d f t tg
      = (.ok (getTranslationBody r s m d f t tg).1,
         { (getTranslationBody r s m d f t tg).2 with
             tcache := List.take 1000
               (((m, d, f, t, tg), (getTranslationBody r s m d f t tg).1)
                 :: (getTranslationBody r s m d f t tg).2.tcache) }) := by
  simp only [get_translation, h]

theorem getTranslationBody_cached_eq (r : Remote) (s : St) (m d f t tg : String)
    (hc : s.serverCached = true) :
    getTranslationBody r s m d f t tg =
      match r.queryR s.queries m d [f, t] none with
      | .error e =>
          ("Error: " ++ e,
            { s with queries := s.queries + 1,
                     logs := s.logs ++ ["Error in translation: " ++ e] })
      | .ok tb =>
        match lastLookup (tablePairs tb) tg with
        | none =>
            ("Error: Target '" ++ tg ++ "' not found",
              { s with queries := s.queries + 1,
                       logs := s.logs ++ ["Target '" ++ tg ++ "' not found in translation"] })
        | some v => (v, { s with queries := s.queries + 1 }) := by
  unfold getTranslationBody get_server
  rw [if_pos hc]

theorem getTranslationBody_cached_state (r : Remote) (s : St) (m d f t tg : String)
    (hc : s.serverCached = true) :
    (getTranslationBody r s m d f t tg).2.serverCached = true ∧
    (getTranslationBody r s m d f t tg).2.tcache = s.tcache ∧
    (getTranslationBody r s m d f t tg).2.queries = s.queries + 1 := by
  rw [getTranslationBody_cached_eq r s m d f t tg hc]
  split
  · exact ⟨hc, rfl, rfl⟩
  · split
    · exact ⟨hc, rfl, rfl⟩
    · exact ⟨hc, rfl, rfl⟩

theorem get_translation_miss_cached (r : Remote) (s : St) (m d f t tg : String)
    (hc : s.serverCached = true)
    (hm : lookupCache s.tcache (m, d, f, t, tg) = none) :
    ∃ v, (get_translation r s m d f t tg).1 = .ok v ∧
      (get_translation r s m d f t tg).2.tcache
        = List.take 1000 (((m, d, f, t, tg), v) :: s.tcache) ∧
      (get_translation r s m d f t tg).2.queries = s.queries + 1 ∧
      (get_translation r s m d f t tg).2.serverCached = true := by
  obtain ⟨hsc, htc, hqu⟩ := getTranslationBody_cached_state r s m d f t tg hc
  rw [get_translation_miss r s m d f t tg hm]
  exact ⟨(getTranslationBody r s m d f t tg).1, rfl, by rw [htc], hqu, hsc⟩

theorem runFill_nil (r : Remote) (s : St) : runFill r [] s = s := rfl

theorem runFill_cons (r : Remote) (k : TransKey) (ks : List TransKey) (s : St) :
    runFill r (k :: ks) s = runFill r ks (callKey r s k).2 := rfl

theorem runFill_spec (r : Remote) :
    ∀ (ks : List TransKey) (s : St), s.serverCached = true →
      ks.Nodup → (∀ k ∈ ks, k ∉ s.tcache.map Prod.fst) →
      s.tcache.length ≤ 1000 →
      ∃ entries : List (TransKey × String),
        entries.map Prod.fst = ks.reverse ∧
        (runFill r ks s).tcache = List.take 1000 (entries ++ s.tcache) ∧
        (runFill r ks s).queries = s.queries + ks.length ∧
        (runFill r ks s).serverCached = true := by
  intro ks
  induction ks with
  | nil =>
    intro s hc _ _ hlen
    refine ⟨[], rfl, ?_, by simp [runFill_nil], hc⟩
    rw [runFill_nil, List.nil_append, List.take_of_length_le hlen]
  | cons k ks ih =>
    intro s hc hnd hfresh hlen
    obtain ⟨a, b, c, d, e⟩ := k
    have hm : lookupCache s.tcache (a, b, c, d, e) = none :=
      lookupCache_eq_none.mpr (hfresh _ (List.mem_cons_self _ _))
    obtain ⟨v, hv1, hv2, hv3, hv4⟩ := get_translation_miss_cached r s a b c d e hc hm
    rw [runFill_cons]
    have hes : (callKey r s (a, b, c, d, e)).2 = (get_translation r s a b c d e).2 := rfl
    rw [hes]
    have hc1 : (get_translation r s a b c d e).2.serverCached = true := hv4
    have hlen1 : (get_translation r s a b c d e).2.tcache.length ≤ 1000 := by
      rw [hv2]
      exact List.length_take_le _ _
    have hfresh1 : ∀ k' ∈ ks, k' ∉ (get_translation r s a b c d e).2.tcache.map Prod.fst := by
      intro k' hk' hmem
      rw [hv2] at hmem
      have hmem2 : k' ∈ ((((a, b, c, d, e), v) :: s.tcache).map Prod.fst) :=
        List.map_subset Prod.fst (List.take_subset _ _) hmem
      rcases List.mem_cons.mp hmem2 with hkey | hmem3
      · refine (List.nodup_cons.mp hnd).1 ?_
        have : ((a, b, c, d, e), v).1 ∈ ks := hkey ▸ hk'
        exact this
      · exact hfresh k' (List.mem_cons_of_mem _ hk') hmem3
    obtain ⟨entries, he1, he2, he3, he4⟩ :=
      ih (get_translation r s a b c d e).2 hc1 (List.nodup_cons.mp hnd).2 hfresh1 hlen1
    refine ⟨entries ++ [((a, b, c, d, e), v)], ?_, ?_, ?_, he4⟩
    · rw [List.map_append, he1]
      simp
    · rw [he2, hv2, take_append_take]
      rw [show entries ++ ((a, b, c, d, e), v) :: s.tcache
          = (entries ++ [((a, b, c, d, e), v)]) ++ s.tcache by simp]
    · rw [he3, hv3]
      simp only [List.length_cons]
      omega

/-! ## Lemmas: the query executor and the listing operations -/

theorem getDataAttempt_cached_ok (r : Remote) (s : St) (m d : String) (a : List String)
    (fs : List (String × String)) (tbl : Table) (hc : s.serverCached = true)
    (hq : r.queryR s.queries m d a (some fs) = .ok tbl) :
    getDataAttempt r s m d a fs = (.ok (normalize tbl), { s with queries := s.queries + 1 }) := by
  simp [getDataAttempt, get_server, hc, hq]

theorem getDataAttempt_cached_err (r : Remote) (s : St) (m d : String) (a : List String)
    (fs : List (String × String)) (e : String) (hc : s.serverCached = true)
    (hq : r.queryR s.queries m d a (some fs) = .error e) :
    getDataAttempt r s m d a fs = (.error e, { s with queries := s.queries + 1 }) := by
  simp [getDataAttempt, get_server, hc, hq]

theorem getDataGo_isOk (r : Remote) (m d : String) (a : List String)
    (fs : List (String × String)) :
    ∀ (rem att : Nat) (s : St), isOk (getDataGo r m d a fs att rem s).1 = true := by
  intro rem
  induction rem with
  | zero => intro att s; rfl
  | succ n ih =>
    intro att s
    rcases hA : getDataAttempt r s m d a fs with ⟨res, s1⟩
    cases res with
    | ok v => simp [getDataGo, hA, isOk]
    | error e =>
      by_cases hatt : att < MAX_RETRIES - 1
      · simp only [getDataGo, hA, if_pos hatt]
        exact ih _ _
      · simp [getDataGo, hA, hatt, isOk]

theorem get_data_isOk (r : Remote) (s : St) (m d : String) (a : List String)
    (fs : List (String × String)) : isOk (get_data r s m d a fs).1 = true :=
  getDataGo_isOk r m d a fs MAX_RETRIES 0 s

theorem get_translation_isOk (r : Remote) (s : St) (m d f t tg : String) :
    isOk (get_translation r s m d f t tg).1 = true := by
  rcases h : lookupCache s.tcache (m, d, f, t, tg) with _ | v
  · simp [get_translation, h, isOk]
  · simp [get_translation, h, isOk]

theorem list_marts_isOk (r : Remote) (s : St) : isOk (list_marts r s).1 = true := by
  rcases hgs : get_server r s with ⟨res, s1⟩
  cases res with
  | ok u => rcases hlm : r.listMartsR with e | t <;> simp [list_marts, hgs, hlm, isOk]
  | error e => simp [list_marts, hgs, isOk]

theorem list_datasets_isOk (r : Remote) (s : St) (m : String) :
    isOk (list_datasets r s m).1 = true := by
  rcases hgs : get_server r s with ⟨res, s1⟩
  cases res with
  | ok u => rcases hlm : r.listDatasetsR m with e | t <;> simp [list_datasets, hgs, hlm, isOk]
  | error e => simp [list_datasets, hgs, isOk]

theorem list_common_attributes_conn_err (r : Remote) (s : St) (m d e : String)
    (h : r.connectR s.connects = .error e) :
    (list_common_attributes r s m d).1 = .error e := by
  simp [list_common_attributes, serverDirect, h]

theorem list_all_attributes_conn_err (r : Remote) (s : St) (m d e : String)
    (h : r.connectR s.connects = .error e) :
    (list_all_attributes r s m d).1 = .error e := by
  simp [list_all_attributes, serverDirect, h]

theorem list_filters_conn_err (r : Remote) (s : St) (m d e : String)
    (h : r.connectR s.connects = .error e) :
    (list_filters r s m d).1 = .error e := by
  simp [list_filters, serverDirect, h]

theorem list_common_attributes_attr_err (r : Remote) (s : St) (m d e : String)
    (hcon : r.connectR s.connects = .ok ()) (h : r.listAttributesR m d = .error e) :
    (list_common_attributes r s m d).1 = .error e := by
  simp [list_common_attributes, serverDirect, hcon, h]

theorem list_all_attributes_attr_err (r : Remote) (s : St) (m d e : String)
    (hcon : r.connectR s.connects = .ok ()) (h : r.listAttributesR m d = .error e) :
    (list_all_attributes r s m d).1 = .error e := by
  simp [list_all_attributes, serverDirect, hcon, h]

theorem list_filters_filt_err (r : Remote) (s : St) (m d e : String)
    (hcon : r.connectR s.connects = .ok ()) (h : r.listFiltersR m d = .error e) :
    (list_filters r s m d).1 = .error e := by
  simp [list_filters, serverDirect, hcon, h]

theorem list_common_attributes_ok (r : Remote) (s : St) (m d : String) (rows : List AttrRow)
    (hcon : r.connectR s.connects = .ok ()) (h : r.listAttributesR m d = .ok rows) :
    (list_common_attributes r s m d).1
      = .ok (normalize (attrTable (rows.filter fun a => COMMON_ATTRIBUTES.contains a.name))) := by
  simp [list_common_attributes, serverDirect, hcon, h]

theorem list_all_attributes_ok (r : Remote) (s : St) (m d : String) (rows : List AttrRow)
    (hcon : r.connectR s.connects = .ok ()) (h : r.listAttributesR m d = .ok rows) :
    (list_all_attributes r s m d).1
      = .ok (normalize (attrTable
          ((((rows.filter fun a => !(containsSub "_homolog_" a.name)).filter
              fun a => !(containsSub "dbass" a.name)).filter
              fun a => !(containsSub "affy_" a.name)).filter
              fun a => !(containsSub "agilent_" a.name)))) := by
  simp [list_all_attributes, serverDirect, hcon, h]

theorem lastLookup_eq_none {ps : List (String × String)} {k : String} :
    lastLookup ps k = none ↔ k ∉ ps.map Prod.fst := by
  induction ps with
  | nil => simp [lastLookup]
  | cons p rest ih =>
    obtain ⟨a, b⟩ := p
    rcases hrest : lastLookup rest k with _ | v
    · by_cases hak : a = k
      · simp [lastLookup, hrest, hak]
      · simp [lastLookup, hrest, hak, ih.mp hrest]
        exact fun h => hak h.symm
    · have : k ∈ rest.map Prod.fst := by
        by_contra hn
        rw [← ih] at hn
        rw [hn] at hrest
        cases hrest
      simp [lastLookup, hrest, this]

theorem lastLookup_last {k v : String} :
    ∀ (p1 p2 : List (String × String)), k ∉ p2.map Prod.fst →
      lastLookup (p1 ++ (k, v) :: p2) k = some v := by
  intro p1
  induction p1 with
  | nil =>
    intro p2 hp2
    show lastLookup ((k, v) :: p2) k = some v
    rw [show lastLookup ((k, v) :: p2) k
        = (match lastLookup p2 k with
           | some w => some w
           | none => if k = k then some v else none) from rfl]
    rw [lastLookup_eq_none.mpr hp2, if_pos rfl]
  | cons q p1' ih =>
    intro p2 hp2
    obtain ⟨a, b⟩ := q
    rw [List.cons_append]
    rw [show lastLookup ((a, b) :: (p1' ++ (k, v) :: p2)) k
        = (match lastLookup (p1' ++ (k, v) :: p2) k with
           | some w => some w
           | none => if a = k then some b else none) from rfl]
    rw [ih p2 hp2]

theorem lookupCache_take_cons (k : TransKey) (v : String) (c : List (TransKey × String)) :
    lookupCache (List.take 1000 ((k, v) :: c)) k = some v := by
  rw [show (1000 : Nat) = 999 + 1 from rfl, List.take_succ_cons]
  exact lookupCache_cons_self _ _ _

theorem get_translation_eval (r : Remote) (s : St) (m d f t tg : String) (tbl : Table)
    (hc : s.serverCached = true)
    (hm : lookupCache s.tcache (m, d, f, t, tg) = none)
    (hq : r.queryR s.queries m d [f, t] none = .ok tbl) :
    (get_translation r s m d f t tg).1
      = .ok (match lastLookup (tablePairs tbl) tg with
             | some v => v
             | none => "Error: Target '" ++ tg ++ "' not found") := by
  rw [get_translation_miss r s m d f t tg hm]
  show Except.ok (getTranslationBody r s m d f t tg).1 = _
  rw [getTranslationBody_cached_eq r s m d f t tg hc, hq]
  rcases hl : lastLookup (tablePairs tbl) tg with _ | v <;> simp [hl]

/-! ## Claim C1 -/

/-- C1 counterexample: the translation cache does not key on the four-tuple
(mart, dataset, from_attr, to_attr).  Two `get_translation` calls sharing the
four-tuple but with different `target` values each issue their own remote
query (the instrumented query count reaches 2, not 1), because the
`lru_cache` keys on all five arguments. -/
theorem translation_four_tuple_cex :
    (get_translation okRemote initSt "m" "d" "f" "t" "TP53").1 = .ok "ENSG1" ∧
    ((get_translation okRemote initSt "m" "d" "f" "t" "TP53").2).queries = 1 ∧
    (get_translation okRemote ((get_translation okRemote initSt "m" "d" "f" "t" "TP53").2)
      "m" "d" "f" "t" "BRCA2").1 = .ok "ENSG2" ∧
    ((get_translation okRemote ((get_translation okRemote initSt "m" "d" "f" "t" "TP53").2)
      "m" "d" "f" "t" "BRCA2").2).queries = 2 := by
  decide

/-- C1 (amended): the translation cache keys on the full five-tuple of
arguments, `target` included.  A repeated call with the identical five
arguments is answered from the cache: it returns the same string as the
first call and issues no further remote query (even against a different
remote), and a first call from a cache miss with a live connection issues
exactly one remote query.  Calls that differ only in `target` are distinct
cache keys and query separately (see the counterexample). -/
theorem get_translation_five_key_memo (r r2 : Remote) (s : St) (m d f t tg : String) :
    (get_translation r2 ((get_translation r s m d f t tg).2) m d f t tg).1
      = (get_translation r s m d f t tg).1 ∧
    ((get_translation r2 ((get_translation r s m d f t tg).2) m d f t tg).2).queries
      = ((get_translation r s m d f t tg).2).queries ∧
    (s.serverCached = true → lookupCache s.tcache (m, d, f, t, tg) = none →
      ((get_translation r s m d f t tg).2).queries = s.queries + 1) := by
  rcases hm : lookupCache s.tcache (m, d, f, t, tg) with _ | v
  · rw [get_translation_miss r s m d f t tg hm]
    have hhit := get_translation_hit r2
      { (getTranslationBody r s m d f t tg).2 with
          tcache := List.take 1000
            (((m, d, f, t, tg), (getTranslationBody r s m d f t tg).1)
              :: (getTranslationBody r s m d f t tg).2.tcache) }
      m d f t tg (getTranslationBody r s m d f t tg).1
      (lookupCache_take_cons _ _ _)
    rw [hhit]
    refine ⟨rfl, rfl, fun hc _ => ?_⟩
    exact (getTranslationBody_cached_state r s m d f t tg hc).2.2
  · rw [get_translation_hit r s m d f t tg v hm]
    have hhit := get_translation_hit r2
      { s with tcache := ((m, d, f, t, tg), v) :: removeKey s.tcache (m, d, f, t, tg) }
      m d f t tg v (lookupCache_cons_self _ _ _)
    rw [hhit]
    exact ⟨rfl, rfl, fun _ hn => Option.noConfusion hn⟩

/-- C1 witness: instantiating the amended theorem's conditional part at a
concrete remote and state. -/
theorem get_translation_five_key_memo_witness :
    ((get_translation okRemote cachedSt "m" "d" "f" "t" "TP53").2).queries
      = cachedSt.queries + 1 :=
  (get_translation_five_key_memo okRemote okRemote cachedSt "m" "d" "f" "t" "TP53").2.2 rfl rfl

/-! ## Claim C3 -/

/-- C3 counterexample: a failed mapping build IS cached.  With a remote whose
query raises, the first call returns "Error: boom" after one remote query;
a repeated call with the same five arguments — even against a remote that
now succeeds — replays the cached "Error: boom" string and issues no new
remote query (the query count stays 1), contradicting the claim that a later
call retries the query afresh. -/
theorem translation_error_cached_cex :
    (get_translation queryFailRemote initSt "m" "d" "f" "t" "TP53").1 = .ok "Error: boom" ∧
    ((get_translation queryFailRemote initSt "m" "d" "f" "t" "TP53").2).queries = 1 ∧
    (get_translation okRemote
      ((get_translation queryFailRemote initSt "m" "d" "f" "t" "TP53").2)
      "m" "d" "f" "t" "TP53").1 = .ok "Error: boom" ∧
    ((get_translation okRemote
      ((get_translation queryFailRemote initSt "m" "d" "f" "t" "TP53").2)
      "m" "d" "f" "t" "TP53").2).queries = 1 := by
  decide

/-- C3 (amended): when building the mapping fails, `get_translation` returns
"Error: <message>" and that error string is memoized under the five-argument
key like any other return value: a subsequent call with the same arguments
(against any remote) replays the cached error string and issues no fresh
remote query. -/
theorem get_translation_error_cached (r r2 : Remote) (s : St) (m d f t tg e : String)
    (hc : s.serverCached = true)
    (hm : lookupCache s.tcache (m, d, f, t, tg) = none)
    (hq : r.queryR s.queries m d [f, t] none = .error e) :
    (get_translation r s m d f t tg).1 = .ok ("Error: " ++ e) ∧
    (get_translation r2 ((get_translation r s m d f t tg).2) m d f t tg).1
      = .ok ("Error: " ++ e) ∧
    ((get_translation r2 ((get_translation r s m d f t tg).2) m d f t tg).2).queries
      = ((get_translation r s m d f t tg).2).queries := by
  have hbody : (getTranslationBody r s m d f t tg).1 = "Error: " ++ e := by
    rw [getTranslationBody_cached_eq r s m d f t tg hc, hq]
  obtain ⟨hrep1, hrep2, _⟩ := get_translation_five_key_memo r r2 s m d f t tg
  rw [get_translation_miss r s m d f t tg hm] at hrep1 hrep2 ⊢
  exact ⟨by rw [hbody], by rw [hrep1, hbody], hrep2⟩

/-- C3 witness: the amended theorem applied at a remote whose queries fail
with "boom". -/
theorem get_translation_error_cached_witness :
    (get_translation queryFailRemote cachedSt "m" "d" "f" "t" "TP53").1
      = .ok ("Error: " ++ "boom") ∧
    (get_translation okRemote
      ((get_translation queryFailRemote cachedSt "m" "d" "f" "t" "TP53").2)
      "m" "d" "f" "t" "TP53").1 = .ok ("Error: " ++ "boom") ∧
    ((get_translation okRemote
      ((get_translation queryFailRemote cachedSt "m" "d" "f" "t" "TP53").2)
      "m" "d" "f" "t" "TP53").2).queries
      = ((get_translation queryFailRemote cachedSt "m" "d" "f" "t" "TP53").2).queries :=
  get_translation_error_cached queryFailRemote okRemote cachedSt "m" "d" "f" "t" "TP53" "boom"
    rfl rfl rfl

/-! ## Claim C10 -/

/-- C10 (amended): `get_translation` memoizes on all five arguments and
caches error strings exactly like values: while the five-tuple's entry
remains in the cache (it can be evicted once 1000 distinct other five-tuples
have been used, capacity 1000, least-recently-used first), a call returns
the cached string with no remote query; and every call leaves its own
returned string cached under its five-tuple. -/
theorem get_translation_cached_replay :
    (∀ (r : Remote) (s : St) (m d f t tg v : String),
        lookupCache s.tcache (m, d, f, t, tg) = some v →
          (get_translation r s m d f t tg).1 = .ok v ∧
          ((get_translation r s m d f t tg).2).queries = s.queries) ∧
    (∀ (r : Remote) (s : St) (m d f t tg : String),
        ∃ v, (get_translation r s m d f t tg).1 = .ok v ∧
          lookupCache ((get_translation r s m d f t tg).2).tcache (m, d, f, t, tg)
            = some v) := by
  constructor
  · intro r s m d f t tg v hv
    rw [get_translation_hit r s m d f t tg v hv]
    exact ⟨rfl, rfl⟩
  · intro r s m d f t tg
    rcases hm : lookupCache s.tcache (m, d, f, t, tg) with _ | v
    · rw [get_translation_miss r s m d f t tg hm]
      exact ⟨(getTranslationBody r s m d f t tg).1, rfl, lookupCache_take_cons _ _ _⟩
    · rw [get_translation_hit r s m d f t tg v hm]
      exact ⟨v, rfl, lookupCache_cons_self _ _ _⟩

/-- C10 witness: a cached entry (here an error string) is replayed verbatim
with no remote query. -/
theorem get_translation_cached_replay_witness :
    (get_translation okRemote
      { initSt with tcache := [(("m", "d", "f", "t", "TP53"), "Error: boom")] }
      "m" "d" "f" "t" "TP53").1 = .ok "Error: boom" ∧
    ((get_translation okRemote
      { initSt with tcache := [(("m", "d", "f", "t", "TP53"), "Error: boom")] }
      "m" "d" "f" "t" "TP53").2).queries
      = ({ initSt with tcache := [(("m", "d", "f", "t", "TP53"), "Error: boom")] } : St).queries :=
  get_translation_cached_replay.1 okRemote
    { initSt with tcache := [(("m", "d", "f", "t", "TP53"), "Error: boom")] }
    "m" "d" "f" "t" "TP53" "Error: boom" (by decide)

/-- C10 counterexample: "every later call with the identical five arguments
returns that exact same string" fails once the entry is evicted.  Starting
from the empty cache, a first call returns "A" (the remote's answer at query
count 0); after 1000 calls with 1000 pairwise-distinct other five-tuples the
LRU cache (capacity 1000) has evicted the first entry, and the next call
with the original five arguments re-queries the (changed) remote and returns
"B" ≠ "A". -/
theorem translation_eviction_cex :
    (get_translation evictRemote initSt "m" "d" "f" "t" "TP53").1 = .ok "A" ∧
    (get_translation evictRemote
      (runFill evictRemote ((List.range 1000).map fillKey)
        ((get_translation evictRemote initSt "m" "d" "f" "t" "TP53").2))
      "m" "d" "f" "t" "TP53").1 = .ok "B" := by
  have h1 : get_translation evictRemote initSt "m" "d" "f" "t" "TP53"
      = (.ok "A", ⟨true, [(("m", "d", "f", "t", "TP53"), "A")], 1, 1, [], []⟩) := by
    decide
  have hkey : ∀ i : Nat, fillKey i ≠ ("m", "d", "f", "t", "TP53") := by
    intro i heq
    have : "fill" = "m" := congrArg Prod.fst heq
    exact absurd this (by decide)
  have hinj : Function.Injective fillKey := by
    intro i j hij
    have hstr : String.mk (List.replicate i 'z') = String.mk (List.replicate j 'z') :=
      congrArg (fun k : TransKey => k.2.2.2.2) hij
    have hdata : List.replicate i 'z' = List.replicate j 'z' := congrArg String.data hstr
    have := congrArg List.length hdata
    simpa using this
  rw [h1]
  show (Except.ok "A" : Except String String) = .ok "A" ∧ _
  refine ⟨rfl, ?_⟩
  obtain ⟨entries, he1, he2, he3, he4⟩ :=
    runFill_spec evictRemote ((List.range 1000).map fillKey)
      ⟨true, [(("m", "d", "f", "t", "TP53"), "A")], 1, 1, [], []⟩
      rfl (List.Nodup.map hinj (List.nodup_range 1000))
      (by
        intro k hk hmem
        rcases List.mem_map.mp hk with ⟨i, _, rfl⟩
        rcases List.mem_map.mp hmem with ⟨p, hp, hfst⟩
        rcases List.mem_singleton.mp hp with rfl
        exact hkey i hfst.symm)
      (by simp)
  have hlenE : entries.length = 1000 := by
    have := congrArg List.length he1
    simpa using this
  have htake : List.take 1000 (entries ++ [(("m", "d", "f", "t", "TP53"), "A")]) = entries := by
    rw [← hlenE, List.take_left]
  have hnotmem : ("m", "d", "f", "t", "TP53") ∉ entries.map Prod.fst := by
    rw [he1]
    intro hmem
    rcases List.mem_map.mp (List.mem_reverse.mp hmem) with ⟨i, _, hfk⟩
    exact hkey i hfk
  have hmiss : lookupCache
      (runFill evictRemote ((List.range 1000).map fillKey)
        ⟨true, [(("m", "d", "f", "t", "TP53"), "A")], 1, 1, [], []⟩).tcache
      ("m", "d", "f", "t", "TP53") = none := by
    rw [he2, htake]
    exact lookupCache_eq_none.mpr hnotmem
  have hq1001 : evictRemote.queryR
      (runFill evictRemote ((List.range 1000).map fillKey)
        ⟨true, [(("m", "d", "f", "t", "TP53"), "A")], 1, 1, [], []⟩).queries
      "m" "d" ["f", "t"] none = .ok ⟨["f", "t"], [["TP53", "B"]]⟩ := by
    rw [he3]
    simp only [List.length_map, List.length_range]
    decide
  rw [get_translation_eval evictRemote _ "m" "d" "f" "t" "TP53"
    ⟨["f", "t"], [["TP53", "B"]]⟩ he4 hmiss hq1001]
  decide

/-! ## Claim C2 -/

/-- C2 counterexample: the exception surface of the listing operations is
wider than "ConnectionFailure during the very first connection
establishment".  Against a remote whose connection establishment succeeds,
`list_common_attributes` still propagates the remote attribute-listing
failure as a raised fault instead of converting it to an inline
"Error: ..." string. -/
theorem error_propagation_cex :
    attrErrRemote.connectR 0 = .ok () ∧
    (list_common_attributes attrErrRemote initSt "m" "d").1 = .error "no such mart" := by
  exact ⟨rfl, by decide⟩

/-- C2 (amended): `list_marts`, `list_datasets`, `get_data` and
`get_translation` never propagate a raised fault (every failure is converted
to an inline "Error: ..." string), but `list_common_attributes`,
`list_all_attributes` and `list_filters` have no handler at all: each of
them constructs a fresh connection on every call and propagates every
failure — connection establishment failures (on every call, not only the
first) and remote listing failures alike. -/
theorem error_propagation :
    (∀ (r : Remote) (s : St), isOk (list_marts r s).1 = true) ∧
    (∀ (r : Remote) (s : St) (m : String), isOk (list_datasets r s m).1 = true) ∧
    (∀ (r : Remote) (s : St) (m d : String) (a : List String)
        (fs : List (String × String)), isOk (get_data r s m d a fs).1 = true) ∧
    (∀ (r : Remote) (s : St) (m d f t tg : String),
        isOk (get_translation r s m d f t tg).1 = true) ∧
    (∀ (r : Remote) (s : St) (m d e : String), r.connectR s.connects = .error e →
        (list_common_attributes r s m d).1 = .error e ∧
        (list_all_attributes r s m d).1 = .error e ∧
        (list_filters r s m d).1 = .error e) ∧
    (∀ (r : Remote) (s : St) (m d e : String),
        r.connectR s.connects = .ok () → r.listAttributesR m d = .error e →
        (list_common_attributes r s m d).1 = .error e ∧
        (list_all_attributes r s m d).1 = .error e) ∧
    (∀ (r : Remote) (s : St) (m d e : String),
        r.connectR s.connects = .ok () → r.listFiltersR m d = .error e →
        (list_filters r s m d).1 = .error e) := by
  refine ⟨list_marts_isOk, list_datasets_isOk, get_data_isOk, get_translation_isOk,
    ?_, ?_, list_filters_filt_err⟩
  · intro r s m d e h
    exact ⟨list_common_attributes_conn_err r s m d e h,
      list_all_attributes_conn_err r s m d e h, list_filters_conn_err r s m d e h⟩
  · intro r s m d e hcon h
    exact ⟨list_common_attributes_attr_err r s m d e hcon h,
      list_all_attributes_attr_err r s m d e hcon h⟩

/-- C2 witness: the amended theorem's propagation clauses instantiated at
concrete remotes. -/
theorem error_propagation_witness :
    (list_common_attributes connFailRemote initSt "m" "d").1 = .error "refused" ∧
    (list_all_attributes attrErrRemote initSt "m" "d").1 = .error "no such mart" ∧
    (list_filters filtErrRemote initSt "m" "d").1 = .error "bad dataset" :=
  ⟨(error_propagation.2.2.2.2.1 connFailRemote initSt "m" "d" "refused" rfl).1,
   (error_propagation.2.2.2.2.2.1 attrErrRemote initSt "m" "d" "no such mart" rfl rfl).2,
   error_propagation.2.2.2.2.2.2 filtErrRemote initSt "m" "d" "bad dataset" rfl rfl⟩

/-! ## Claim C7 -/

/-- C7 counterexample: the attribute/filter listing operations do not
delegate to the connection cache.  After `list_marts` has established and
cached the connection (the cache flag is set and one establishment has
happened), a `list_common_attributes` call still constructs a fresh
`pybiomart.Server`, raising the connection-establishment count to 2. -/
theorem connection_delegation_cex :
    ((list_marts okRemote initSt).2).serverCached = true ∧
    ((list_marts okRemote initSt).2).connects = 1 ∧
    ((list_common_attributes okRemote ((list_marts okRemote initSt).2) "m" "d").2).connects
      = 2 := by
  decide

/-- C7 (amended): only `list_marts` and `list_datasets` obtain their
connection through the memoizing `get_server` (no new establishment once a
connection is cached); `list_common_attributes`, `list_all_attributes` and
`list_filters` construct a fresh connection on every single call, caching
nothing. -/
theorem connection_delegation :
    (∀ (r : Remote) (s : St), s.serverCached = true →
        ((list_marts r s).2).connects = s.connects ∧
        ∀ m, ((list_datasets r s m).2).connects = s.connects) ∧
    (∀ (r : Remote) (s : St) (m d : String),
        ((list_common_attributes r s m d).2).connects = s.connects + 1 ∧
        ((list_all_attributes r s m d).2).connects = s.connects + 1 ∧
        ((list_filters r s m d).2).connects = s.connects + 1) := by
  constructor
  · intro r s hc
    constructor
    · rcases hlm : r.listMartsR with e | tb <;> simp [list_marts, get_server, hc, hlm]
    · intro m
      rcases hld : r.listDatasetsR m with e | tb <;>
        simp [list_datasets, get_server, hc, hld]
  · intro r s m d
    rcases hcon : r.connectR s.connects with e | u
    · refine ⟨?_, ?_, ?_⟩ <;>
        simp [list_common_attributes, list_all_attributes, list_filters, serverDirect, hcon]
    · cases u
      refine ⟨?_, ?_, ?_⟩
      · rcases hla : r.listAttributesR m d with e | rows <;>
          simp [list_common_attributes, serverDirect, hcon, hla]
      · rcases hla : r.listAttributesR m d with e | rows <;>
          simp [list_all_attributes, serverDirect, hcon, hla]
      · rcases hlf : r.listFiltersR m d with e | tb <;>
          simp [list_filters, serverDirect, hcon, hlf]

/-- C7 witness: the amended theorem instantiated at a concrete remote and a
state holding a cached connection. -/
theorem connection_delegation_witness :
    ((list_marts okRemote cachedSt).2).connects = cachedSt.connects ∧
    ((list_common_attributes okRemote cachedSt "m" "d").2).connects
      = cachedSt.connects + 1 :=
  ⟨(connection_delegation.1 okRemote cachedSt rfl).1,
   (connection_delegation.2 okRemote cachedSt "m" "d").1⟩

/-! ## Claim C4 -/

/-- C4: when the remote query fails on all 3 attempts (server connection
cached), `get_data` returns the inline string "Error: <message of the third
attempt>" without raising, sleeps RETRY_DELAY = 2 seconds between
consecutive attempts (two sleeps), and writes exactly 3 failure log entries
plus 2 retry-notice entries to the diagnostic stream, in order. -/
theorem get_data_retry_exhaustion (r : Remote) (s : St) (m d : String) (a : List String)
    (fs : List (String × String)) (e1 e2 e3 : String)
    (hc : s.serverCached = true)
    (h1 : r.queryR s.queries m d a (some fs) = .error e1)
    (h2 : r.queryR (s.queries + 1) m d a (some fs) = .error e2)
    (h3 : r.queryR (s.queries + 2) m d a (some fs) = .error e3) :
    (get_data r s m d a fs).1 = .ok ("Error: " ++ e3) ∧
    ((get_data r s m d a fs).2).logs
      = s.logs ++ [getDataFailLog 0 e1, retryLog, getDataFailLog 1 e2, retryLog,
          getDataFailLog 2 e3] ∧
    ((get_data r s m d a fs).2).sleeps = s.sleeps ++ [RETRY_DELAY, RETRY_DELAY] ∧
    ((get_data r s m d a fs).2).queries = s.queries + 3 := by
  refine ⟨?_, ?_, ?_, ?_⟩ <;>
    simp [get_data, getDataGo, MAX_RETRIES, getDataAttempt, get_server, hc, h1, h2, h3,
      List.append_assoc]

/-- C4 witness: the theorem at a remote whose queries always fail with
"boom" and a state with a cached connection. -/
theorem get_data_retry_exhaustion_witness :
    (get_data queryFailRemote cachedSt "m" "d" ["f"] []).1 = .ok ("Error: " ++ "boom") ∧
    ((get_data queryFailRemote cachedSt "m" "d" ["f"] []).2).logs
      = cachedSt.logs ++ [getDataFailLog 0 "boom", retryLog, getDataFailLog 1 "boom",
          retryLog, getDataFailLog 2 "boom"] ∧
    ((get_data queryFailRemote cachedSt "m" "d" ["f"] []).2).sleeps
      = cachedSt.sleeps ++ [RETRY_DELAY, RETRY_DELAY] ∧
    ((get_data queryFailRemote cachedSt "m" "d" ["f"] []).2).queries
      = cachedSt.queries + 3 :=
  get_data_retry_exhaustion queryFailRemote cachedSt "m" "d" ["f"] [] "boom" "boom" "boom"
    rfl rfl rfl rfl

/-! ## Claim C5 -/

/-- C5: when the remote query succeeds on attempt k (k < 3, earlier attempts
failing, server connection cached), `get_data` returns exactly the
normalized table of attempt k, performs no further attempts (k+1 queries in
total), and slept k times; results of distinct attempts are never merged. -/
theorem get_data_first_success (r : Remote) (s : St) (m d : String) (a : List String)
    (fs : List (String × String)) (k : Nat) (tbl : Table)
    (hk : k < MAX_RETRIES) (hc : s.serverCached = true)
    (hfail : ∀ j, j < k → ∃ e, r.queryR (s.queries + j) m d a (some fs) = .error e)
    (hok : r.queryR (s.queries + k) m d a (some fs) = .ok tbl) :
    (get_data r s m d a fs).1 = .ok (normalize tbl) ∧
    ((get_data r s m d a fs).2).queries = s.queries + (k + 1) ∧
    ((get_data r s m d a fs).2).sleeps = s.sleeps ++ List.replicate k RETRY_DELAY := by
  have hk3 : k < 3 := hk
  interval_cases k
  · have hok0 : r.queryR s.queries m d a (some fs) = .ok tbl := by simpa using hok
    refine ⟨?_, ?_, ?_⟩ <;>
      simp [get_data, getDataGo, MAX_RETRIES, getDataAttempt, get_server, hc, hok0]
  · obtain ⟨e1, he1⟩ := hfail 0 (by decide)
    have he1' : r.queryR s.queries m d a (some fs) = .error e1 := by simpa using he1
    refine ⟨?_, ?_, ?_⟩ <;>
      simp [get_data, getDataGo, MAX_RETRIES, getDataAttempt, get_server, hc, he1', hok,
        List.append_assoc]
  · obtain ⟨e1, he1⟩ := hfail 0 (by decide)
    obtain ⟨e2, he2⟩ := hfail 1 (by decide)
    have he1' : r.queryR s.queries m d a (some fs) = .error e1 := by simpa using he1
    refine ⟨?_, ?_, ?_⟩ <;>
      simp [get_data, getDataGo, MAX_RETRIES, getDataAttempt, get_server, hc, he1', he2, hok,
        List.append_assoc]

/-- C5 witness: a remote that fails once and then succeeds; `get_data`
returns the table of the second attempt after exactly two queries and one
sleep. -/
theorem get_data_first_success_witness :
    (get_data flakyRemote cachedSt "m" "d" ["f"] []).1
      = .ok (normalize ⟨["f", "t"], [["TP53", "ENSG1"]]⟩) ∧
    ((get_data flakyRemote cachedSt "m" "d" ["f"] []).2).queries
      = cachedSt.queries + (1 + 1) ∧
    ((get_data flakyRemote cachedSt "m" "d" ["f"] []).2).sleeps
      = cachedSt.sleeps ++ List.replicate 1 RETRY_DELAY :=
  get_data_first_success flakyRemote cachedSt "m" "d" ["f"] [] 1
    ⟨["f", "t"], [["TP53", "ENSG1"]]⟩ (by decide) rfl
    (fun j hj => by interval_cases j; exact ⟨"timeout", rfl⟩) rfl

/-! ## Claim C6 -/

theorem filter_four (rows : List AttrRow) :
    ((((rows.filter fun a => !(containsSub "_homolog_" a.name)).filter
        fun a => !(containsSub "dbass" a.name)).filter
        fun a => !(containsSub "affy_" a.name)).filter
        fun a => !(containsSub "agilent_" a.name))
      = rows.filter fun a =>
          !(containsSub "_homolog_" a.name || containsSub "dbass" a.name
            || containsSub "affy_" a.name || containsSub "agilent_" a.name) := by
  rw [List.filter_filter, List.filter_filter, List.filter_filter]
  refine List.filter_congr fun a _ => ?_
  cases containsSub "_homolog_" a.name <;> cases containsSub "dbass" a.name <;>
    cases containsSub "affy_" a.name <;> cases containsSub "agilent_" a.name <;> rfl

theorem common_not_excluded :
    ∀ n ∈ COMMON_ATTRIBUTES,
      containsSub "_homolog_" n = false ∧ containsSub "dbass" n = false ∧
      containsSub "affy_" n = false ∧ containsSub "agilent_" n = false := by
  decide

/-- C6: for a dataset whose attribute listing succeeds,
`list_common_attributes` returns exactly the rows whose name is in the
18-name allow-list, `list_all_attributes` returns exactly the rows whose
name contains none of the four excluded substrings, the common rows are a
subset of the all-attribute rows, and no common row's name matches an
excluded substring. -/
theorem attribute_filtering (r : Remote) (s : St) (m d : String) (rows : List AttrRow)
    (hcon : r.connectR s.connects = .ok ()) (hattr : r.listAttributesR m d = .ok rows) :
    (list_common_attributes r s m d).1
      = .ok (normalize (attrTable (rows.filter fun a => COMMON_ATTRIBUTES.contains a.name))) ∧
    (list_all_attributes r s m d).1
      = .ok (normalize (attrTable (rows.filter fun a =>
          !(containsSub "_homolog_" a.name || containsSub "dbass" a.name
            || containsSub "affy_" a.name || containsSub "agilent_" a.name)))) ∧
    (∀ x ∈ rows.filter (fun a => COMMON_ATTRIBUTES.contains a.name),
        x ∈ rows.filter fun a =>
          !(containsSub "_homolog_" a.name || containsSub "dbass" a.name
            || containsSub "affy_" a.name || containsSub "agilent_" a.name)) ∧
    (∀ x ∈ rows.filter (fun a => COMMON_ATTRIBUTES.contains a.name),
        containsSub "_homolog_" x.name = false ∧ containsSub "dbass" x.name = false ∧
        containsSub "affy_" x.name = false ∧ containsSub "agilent_" x.name = false) := by
  have hnx : ∀ x ∈ rows.filter (fun a => COMMON_ATTRIBUTES.contains a.name),
      containsSub "_homolog_" x.name = false ∧ containsSub "dbass" x.name = false ∧
      containsSub "affy_" x.name = false ∧ containsSub "agilent_" x.name = false := by
    intro x hx
    have hmemf := List.mem_filter.mp hx
    exact common_not_excluded x.name (List.mem_of_elem_eq_true hmemf.2)
  refine ⟨list_common_attributes_ok r s m d rows hcon hattr, ?_, ?_, hnx⟩
  · rw [list_all_attributes_ok r s m d rows hcon hattr, filter_four]
  · intro x hx
    obtain ⟨h1, h2, h3, h4⟩ := hnx x hx
    have hmemf := List.mem_filter.mp hx
    refine List.mem_filter.mpr ⟨hmemf.1, ?_⟩
    simp only [h1, h2, h3, h4]
    rfl

/-- C6 witness: the theorem instantiated at a remote whose attribute listing
has one allow-listed and one excluded (affy_) row. -/
theorem attribute_filtering_witness :
    (list_common_attributes okRemote initSt "m" "d").1
      = .ok (normalize (attrTable
          (([⟨"hgnc_symbol", "HGNC symbol", "x"⟩,
             ⟨"affy_hg_u133a", "AFFY HG U133A", "y"⟩] : List AttrRow).filter
            fun a => COMMON_ATTRIBUTES.contains a.name))) ∧
    (list_all_attributes okRemote initSt "m" "d").1
      = .ok (normalize (attrTable
          (([⟨"hgnc_symbol", "HGNC symbol", "x"⟩,
             ⟨"affy_hg_u133a", "AFFY HG U133A", "y"⟩] : List AttrRow).filter
            fun a => !(containsSub "_homolog_" a.name || containsSub "dbass" a.name
              || containsSub "affy_" a.name || containsSub "agilent_" a.name)))) :=
  ⟨(attribute_filtering okRemote initSt "m" "d"
      [⟨"hgnc_symbol", "HGNC symbol", "x"⟩, ⟨"affy_hg_u133a", "AFFY HG U133A", "y"⟩]
      rfl rfl).1,
   (attribute_filtering okRemote initSt "m" "d"
      [⟨"hgnc_symbol", "HGNC symbol", "x"⟩, ⟨"affy_hg_u133a", "AFFY HG U133A", "y"⟩]
      rfl rfl).2.1⟩

/-! ## Claim C8 -/

/-- C8: on a successfully built mapping, the dict binds a duplicated
from-value to its last-seen to-value (last-write-wins) and `get_translation`
returns the bare mapped value; when the target is absent it returns the
string "Error: Target '<target>' not found" without raising. -/
theorem translation_lookup_semantics (r : Remote) (s : St) (m d f t tg : String)
    (tbl : Table) (hc : s.serverCached = true)
    (hm : lookupCache s.tcache (m, d, f, t, tg) = none)
    (hq : r.queryR s.queries m d [f, t] none = .ok tbl) :
    (∀ (p1 p2 : List (String × String)) (v : String),
        tablePairs tbl = p1 ++ (tg, v) :: p2 → tg ∉ p2.map Prod.fst →
        (get_translation r s m d f t tg).1 = .ok v) ∧
    (tg ∉ (tablePairs tbl).map Prod.fst →
        (get_translation r s m d f t tg).1
          = .ok ("Error: Target '" ++ tg ++ "' not found")) := by
  have heval := get_translation_eval r s m d f t tg tbl hc hm hq
  constructor
  · intro p1 p2 v hsplit hnot
    rw [heval, hsplit, lastLookup_last p1 p2 hnot]
  · intro hnot
    rw [heval, lastLookup_eq_none.mpr hnot]

/-- C8 witness: a duplicated from-value TP53 resolves to the last pair's
value, and an absent target yields the not-found error string. -/
theorem translation_lookup_semantics_witness :
    (get_translation dupRemote cachedSt "m" "d" "f" "t" "TP53").1 = .ok "NEW" ∧
    (get_translation dupRemote cachedSt "m" "d" "f" "t" "NOPE").1
      = .ok ("Error: Target '" ++ "NOPE" ++ "' not found") :=
  ⟨(translation_lookup_semantics dupRemote cachedSt "m" "d" "f" "t" "TP53"
      ⟨["f", "t"], [["TP53", "OLD"], ["BRCA2", "ENSG2"], ["TP53", "NEW"]]⟩
      rfl rfl rfl).1
      [("TP53", "OLD"), ("BRCA2", "ENSG2")] [] "NEW" rfl (by decide),
   (translation_lookup_semantics dupRemote cachedSt "m" "d" "f" "t" "NOPE"
      ⟨["f", "t"], [["TP53", "OLD"], ["BRCA2", "ENSG2"], ["TP53", "NEW"]]⟩
      rfl rfl rfl).2 (by decide)⟩

/-! ## Claim C9 -/

/-- C9 counterexample: the CSV round trip fails on a cell containing a
carriage return.  A remote mart table with cell "x\ry" is rendered by
`list_marts` with the CR stripped inside the quoted field, so parsing the
returned text back yields the cell "xy", not the original cell values. -/
theorem csv_roundtrip_cex :
    (list_marts crRemote cachedSt).1 = .ok (normalize ⟨["a"], [["x\ry"]]⟩) ∧
    normalize ⟨["a"], [["x\ry"]]⟩ = "a\n\"xy\"\n" ∧
    parseCSV (normalize ⟨["a"], [["x\ry"]]⟩)
      ≠ (⟨["a"], [["x\ry"]]⟩ : Table).cols :: (⟨["a"], [["x\ry"]]⟩ : Table).rows := by
  refine ⟨by decide, by decide, by decide⟩

/-- C9 (amended): every table rendered by the normalizer is comma-separated
text with a header row and one row per record and contains no carriage
return anywhere; and for every table whose column names and cells are free
of carriage returns (and whose records are nonempty, as data-frame rows
are), parsing the text back as CSV reproduces the original column order and
cell values exactly.  Tables carrying a CR inside a cell lose that CR (see
the counterexample). -/
theorem csv_roundtrip :
    (∀ t : Table, '\r' ∉ (normalize t).data) ∧
    (∀ t : Table, crFree t → rowsNonempty t →
        parseCSV (normalize t) = t.cols :: t.rows) := by
  constructor
  · intro t hmem
    have hmem2 : '\r' ∈ (csvString t).data.filter (fun c => c ≠ '\r') := hmem
    rcases List.mem_filter.mp hmem2 with ⟨_, hp⟩
    simp at hp
  · intro t h1 h2
    rw [normalize_eq_csvString h1]
    exact parseCSV_csvString t h2

/-- C9 witness: the round trip holds at a concrete CR-free table. -/
theorem csv_roundtrip_witness :
    parseCSV (normalize ⟨["name"], [["m1"]]⟩)
      = (⟨["name"], [["m1"]]⟩ : Table).cols :: (⟨["name"], [["m1"]]⟩ : Table).rows :=
  csv_roundtrip.2 ⟨["name"], [["m1"]]⟩ (by decide) (by decide)

end Biomart

